import Mathlib

/-!
Verification of the serenewealth-io personal-finance ledger frontend.

The development shallowly embeds the TypeScript source under `src/` into Lean:

* numbers produced by JavaScript `Number(...)` / `parseFloat(...)` are modelled
  as rationals (`Rat`); a failed conversion (`NaN`) is modelled as `none` of an
  `Option Rat`;
* optional / possibly-undefined string fields are `Option String`, and the
  JavaScript truthiness convention (where `undefined`, `null` and `""` are
  falsy) is made explicit through the helpers `jsTruthyStr` and `jsOrStr`;
* the locale-aware string comparison used by `localeCompare` sort comparators
  is modelled by the executable lexicographic order `localeLe` on the
  characters of the strings, and JavaScript's stable `Array.prototype.sort`
  by stable insertion sort.

Backend operations that are only visible through their HTTP clients
(`refreshAccountBalance`, `bulkReconcileTransactions`) are modelled from the
specification; their doc comments say so explicitly.
-/

/-- JavaScript string truthiness: `undefined`/`null` (here `none`) and the
empty string are falsy, every other string is truthy. -/
def jsTruthyStr : Option String → Bool
  | none => false
  | some s => s != ""

/-- JavaScript `a || b` for an optional string `a` with default `b`:
the default is taken when `a` is absent or the empty string. -/
def jsOrStr : Option String → String → String
  | none, d => d
  | some s, d => if s = "" then d else s

/-- Lexicographic order on character lists.  This is the executable model of
the total order realized by `String.prototype.localeCompare` in the source's
sort comparators (both are total orders on strings; the verified ordering
facts depend only on totality and transitivity, not on the specific
collation of a locale). -/
def lexLeChars : List Char → List Char → Bool
  | [], _ => true
  | _ :: _, [] => false
  | x :: xs, y :: ys => if x = y then lexLeChars xs ys else decide (x < y)

/-- Model of the `a.localeCompare(b) <= 0` ordering on strings. -/
def localeLe (a b : String) : Bool :=
  lexLeChars a.data b.data

/-- Propositional form of `localeLe`, used as sort relation. -/
def localeLeR (a b : String) : Prop := localeLe a b = true

instance : DecidableRel localeLeR :=
  fun a b => inferInstanceAs (Decidable (localeLe a b = true))

/-- Model of JavaScript `String.prototype.toLowerCase`, mapping every
character to lower case. -/
def lowerString (s : String) : String := String.mk (s.data.map Char.toLower)

/-! ## Account model (src/unnamed/part_000, `lib/types`) -/

/-- Account type union from `lib/types`. -/
inductive AccountType
  | ASSET
  | LIABILITY
  deriving DecidableEq

/-- Transaction direction union of `transactionSchema` (src/unnamed/part_004):
`out` means money leaves the user's pocket, `in` means money comes in
(spelled `in_` because `in` is reserved in Lean). -/
inductive Direction
  | out
  | in_
  deriving DecidableEq

/-- Account record, restricted to the fields the embedded functions read.
Balances arrive from the backend as decimal strings; they are modelled by
their parsed rational value, with `none` for an absent or empty string
(which is falsy in the `||` fallback chains of the source). -/
structure Account where
  id : String
  name : String
  type : AccountType
  current_balance : Option Rat
  cached_actual_balance : Option Rat
  deriving DecidableEq

/-! ## Transaction creation (AddTransactionDialog, src/unnamed/part_004) -/

/-- Form data of `transactionSchema`.  `raw_amount_parsed` is the result of
the JavaScript `Number(raw_amount)` conversion performed by the schema's
refine step (`none` models `NaN`); `effective_date` is an epoch day. -/
structure TransactionFormData where
  account : String
  effective_date : Int
  raw_amount_parsed : Option Rat
  description : String
  direction : Direction
  category : Option String

/-- Embeds the `raw_amount` refine of `transactionSchema`
(src/unnamed/part_004 lines 30-35): `const num = Number(val);
return !isNaN(num) && num !== 0`. -/
def rawAmountRefine (parsed : Option Rat) : Bool :=
  match parsed with
  | none => false
  | some num => num != 0

/-- Embeds the whole `transactionSchema` validation: nonempty account,
the `raw_amount` refine, nonempty description, and the trailing refine
`data.category ? true : false` (truthiness of the optional category). -/
def transactionSchemaValidate (data : TransactionFormData) : Bool :=
  decide (1 ≤ data.account.length) &&
  rawAmountRefine data.raw_amount_parsed &&
  decide (1 ≤ data.description.length) &&
  jsTruthyStr data.category

/-- Sign factor of a direction: `out` contributes `-1`, `in` contributes `+1`. -/
def directionSign : Direction → Rat
  | .out => -1
  | .in_ => 1

/-- Embeds the signed-amount computation of `onSubmit` in AddTransactionDialog
(src/unnamed/part_004 lines 86-98): `absAmount = Math.abs(parseFloat(...))`
followed by the two account-type branches, each of which computes
`data.direction === "out" ? -absAmount : absAmount`. -/
def signedRaw (accountType : AccountType) (direction : Direction) (rawParsed : Rat) : Rat :=
  let absAmount := |rawParsed|
  match accountType with
  | .LIABILITY =>
    match direction with
    | .out => -absAmount
    | .in_ => absAmount
  | .ASSET =>
    match direction with
    | .out => -absAmount
    | .in_ => absAmount

/-- Payload sent to `api.createTransaction` (before the final `toFixed(2)`
string formatting, which is immaterial to the sign claims). -/
structure TransactionPayload where
  account : String
  effective_date : Int
  description : String
  raw_amount : Rat
  category : Option String
  deriving DecidableEq

/-- Embeds the submit path of AddTransactionDialog: react-hook-form's
`handleSubmit` invokes `onSubmit` only when `transactionSchema` validates,
so the payload (and hence the create request) exists exactly on valid data.
`isLiability` is `selectedAccount?.type === "LIABILITY"`, false when the
account lookup fails. -/
def handleSubmitTransaction (accounts : List Account) (data : TransactionFormData) :
    Option TransactionPayload :=
  if transactionSchemaValidate data then
    let selectedAccount := accounts.find? (fun acc => acc.id == data.account)
    let isLiability :=
      match selectedAccount with
      | some acc => acc.type == AccountType.LIABILITY
      | none => false
    let signedRawAmount :=
      signedRaw (if isLiability then AccountType.LIABILITY else AccountType.ASSET)
        data.direction (data.raw_amount_parsed.getD 0)
    some { account := data.account, effective_date := data.effective_date,
           description := data.description, raw_amount := signedRawAmount,
           category := data.category }
  else none

/-! ## Transfer creation (AddTransferDialog, src/unnamed/part_006) -/

/-- Form data of `transferSchema`.  `amount_parsed` is the result of the
JavaScript `Number(amount)` conversion of the schema's refine step
(`none` models `NaN`). -/
structure TransferFormData where
  from_account : String
  to_account : String
  effective_date : Int
  amount_parsed : Option Rat
  purpose_category : String
  description : Option String

/-- Embeds the `amount` refine of `transferSchema` (src/unnamed/part_006
lines 32-37): `const num = Number(val); return !isNaN(num) && num > 0`. -/
def transferAmountRefine (parsed : Option Rat) : Bool :=
  match parsed with
  | none => false
  | some num => decide (0 < num)

/-- Embeds the whole `transferSchema` validation: nonempty from/to accounts,
the amount refine, nonempty purpose category, and the trailing refine
`data.from_account !== data.to_account`. -/
def transferSchemaValidate (data : TransferFormData) : Bool :=
  decide (1 ≤ data.from_account.length) &&
  decide (1 ≤ data.to_account.length) &&
  transferAmountRefine data.amount_parsed &&
  decide (1 ≤ data.purpose_category.length) &&
  (data.from_account != data.to_account)

/-- Payload sent to `createTransfer` (amount before `toFixed(2)` formatting). -/
structure TransferPayload where
  from_account : String
  to_account : String
  amount : Rat
  effective_date : Int
  purpose_category : String
  description : String
  deriving DecidableEq

/-- Embeds the submit path of AddTransferDialog: `handleSubmit` invokes
`onSubmit` (which issues the `createTransfer` request) only when
`transferSchema` validates. -/
def handleSubmitTransfer (data : TransferFormData) : Option TransferPayload :=
  if transferSchemaValidate data then
    some { from_account := data.from_account, to_account := data.to_account,
           amount := data.amount_parsed.getD 0,
           effective_date := data.effective_date,
           purpose_category := data.purpose_category,
           description := data.description.getD "" }
  else none

/-! ## Category model (src/unnamed/part_000, `lib/types`) -/

/-- Category type union inherited from the category's group. -/
inductive CategoryType
  | INCOME
  | EXPENSE
  | TRANSFER
  deriving DecidableEq, Inhabited

/-- Full category-group object carried by a category (read-only view). -/
structure CategoryGroupRef where
  id : String
  name : String
  deriving DecidableEq, Inhabited

/-- Category record, restricted to the fields the embedded functions read.
`group_name` and `group` are optional in `lib/types`; `type` is optional here
because the grouping code guards it with `category.type || 'EXPENSE'`. -/
structure Category where
  id : String
  name : String
  group : Option CategoryGroupRef
  group_id : Option String
  group_name : Option String
  type : Option CategoryType
  deriving DecidableEq, Inhabited

/-! ## Category resolution (BulkCategoryEditor src/unnamed/part_005,
InlineCategoryEditor src/frontend/src/components/transactions/inline-category-editor.tsx) -/

/-- Result of `getCurrentCategory` in BulkCategoryEditor. -/
structure CurrentCategory where
  name : String
  isUncategorized : Bool
  deriving DecidableEq

/-- The `selectedCategoryId` prop of BulkCategoryEditor, which distinguishes
JavaScript `null` (explicitly uncategorized) from `undefined` (no selection). -/
inductive SelectedCategoryId
  | nullId
  | undefinedId
  | someId (id : String)
  deriving DecidableEq

/-- Embeds `getCurrentCategory` of BulkCategoryEditor (src/unnamed/part_005
lines 40-52): `null` resolves to `Uncategorized`; `undefined` shows the
placeholder; a concrete id is looked up in the catalog and falls back to
`category?.name || 'Unknown Category'`. -/
def getCurrentCategory (categories : List Category)
    (selectedCategoryId : SelectedCategoryId) (placeholder : String) : CurrentCategory :=
  match selectedCategoryId with
  | .nullId => { name := "Uncategorized", isUncategorized := true }
  | .undefinedId => { name := placeholder, isUncategorized := false }
  | .someId cid =>
    let category := categories.find? (fun c => c.id == cid)
    { name := jsOrStr (category.map Category.name) "Unknown Category",
      isUncategorized := false }

/-- Discriminator of the server-resolved `effective_category` of an entry. -/
inductive EffectiveCategoryKind
  | direct
  | uncategorized
  deriving DecidableEq

/-- Server-resolved `effective_category` view carried by a ledger entry. -/
structure EffectiveCategory where
  type : EffectiveCategoryKind
  category_id : Option String
  category_name : Option String
  category_type : Option String
  deriving DecidableEq

/-- Ledger-entry fields read by `getCurrentCategoryInfo` of
InlineCategoryEditor (the legacy fallback fields included). -/
structure LedgerEntryView where
  effective_category : Option EffectiveCategory
  category_name : Option String
  category_type : Option String
  category : Option String
  deriving DecidableEq

/-- Result of `getCurrentCategoryInfo` in InlineCategoryEditor. -/
structure CurrentCategoryInfo where
  name : String
  type : Option String
  isUncategorized : Bool
  categoryId : Option String
  deriving DecidableEq

/-- Embeds `getCurrentCategoryInfo` of InlineCategoryEditor (lines 44-80):
a present `effective_category` is dispatched on its `type` (`direct` keeps
the resolved name, defaulting to `'Unknown'`; `uncategorized` collapses to
`Uncategorized`); otherwise the legacy `category_name` fallback applies, and
an entry with neither resolves to `Uncategorized`. -/
def getCurrentCategoryInfo (entry : LedgerEntryView) : CurrentCategoryInfo :=
  match entry.effective_category with
  | some ec =>
    match ec.type with
    | .direct =>
      { name := jsOrStr ec.category_name "Unknown",
        type := ec.category_type, isUncategorized := false,
        categoryId := ec.category_id }
    | .uncategorized =>
      { name := "Uncategorized", type := none, isUncategorized := true,
        categoryId := none }
  | none =>
    if jsTruthyStr entry.category_name then
      { name := entry.category_name.getD "", type := entry.category_type,
        isUncategorized := false, categoryId := entry.category }
    else
      { name := "Uncategorized", type := none, isUncategorized := true,
        categoryId := none }

/-! ## Category grouping (`groupedCategories` of both editors) -/

/-- A category enriched with the search text added while grouping
(`interface GroupedCategory extends Category`). -/
structure GroupedCategory where
  cat : Category
  searchText : String
  deriving DecidableEq, Inhabited

/-- One named group inside a type section of the grouped structure. -/
structure CategoryGroupOut where
  name : String
  categories : List GroupedCategory
  deriving DecidableEq, Inhabited

/-- One type section of the grouped structure (`{ type, displayName, groups }`). -/
structure CategoryTypeSection where
  type : CategoryType
  displayName : String
  groups : List CategoryGroupOut
  deriving DecidableEq, Inhabited

/-- Group-name fallback chain of BulkCategoryEditor (src/unnamed/part_005
line 67): `category.group_name || category.group?.name || 'Other'`. -/
def bulkGroupName (category : Category) : String :=
  jsOrStr category.group_name (jsOrStr (category.group.map CategoryGroupRef.name) "Other")

/-- Group-name fallback of InlineCategoryEditor (line 94):
`category.group_name || 'Other'`. -/
def inlineGroupName (category : Category) : String :=
  jsOrStr category.group_name "Other"

/-- Type bucket of a category: `category.type || 'EXPENSE'` (both editors). -/
def effectiveCategoryType (category : Category) : CategoryType :=
  category.type.getD CategoryType.EXPENSE

/-- Search text attached while grouping:
```${category.name} ${groupName}`.toLowerCase()``. -/
def mkGroupedCategory (gname : Category → String) (category : Category) : GroupedCategory :=
  { cat := category,
    searchText := lowerString (category.name ++ " " ++ gname category) }

/-- Appends a key if it has not been seen yet: models the first-insertion
key order of the `Record` the source pushes categories into. -/
def insertKeyOnce (acc : List String) (k : String) : List String :=
  if k ∈ acc then acc else acc ++ [k]

/-- Group names of a category list in record-insertion order
(first occurrence first), as produced by `Object.entries`. -/
def groupKeys (gname : Category → String) (cats : List Category) : List String :=
  cats.foldl (fun acc c => insertKeyOnce acc (gname c)) []

/-- Sort relation used for the categories inside a group:
`(a, b) => a.name.localeCompare(b.name)`. -/
def groupedNameLe (a b : GroupedCategory) : Prop := localeLeR a.cat.name b.cat.name

instance : DecidableRel groupedNameLe :=
  fun a b => inferInstanceAs (Decidable (localeLe a.cat.name b.cat.name = true))

/-- Builds one sorted group of the grouped structure: the categories pushed
for key `k` (in input order, as the record push preserves it), sorted by
category name with the stable sort of the source. -/
def buildGroup (gname : Category → String) (typeCats : List Category)
    (k : String) : CategoryGroupOut :=
  { name := k,
    categories :=
      ((typeCats.filter (fun c => gname c == k)).map
        (mkGroupedCategory gname)).insertionSort groupedNameLe }

/-- Builds the section for one category type: the categories of that type are
bucketed by group name, group names are sorted by `localeCompare`, and an
empty section is omitted (`if (sortedGroups.length > 0)`). -/
def buildTypeSection (gname : Category → String) (categories : List Category)
    (key : CategoryType) (display : String) : Option CategoryTypeSection :=
  let typeCats := categories.filter (fun c => effectiveCategoryType c == key)
  let sortedKeys := (groupKeys gname typeCats).insertionSort localeLeR
  let sortedGroups := sortedKeys.map (buildGroup gname typeCats)
  if sortedGroups.isEmpty then none
  else some { type := key, displayName := display, groups := sortedGroups }

/-- Fixed type order of both editors: Income, Expense, Transfer. -/
def typeOrder : List (CategoryType × String) :=
  [(CategoryType.INCOME, "Income"), (CategoryType.EXPENSE, "Expense"),
   (CategoryType.TRANSFER, "Transfer")]

/-- Common core of the two `groupedCategories` memos, parameterized by the
group-name fallback (the only line in which the two sources differ). -/
def groupedCategoriesCore (gname : Category → String)
    (categories : List Category) : List CategoryTypeSection :=
  typeOrder.filterMap (fun td => buildTypeSection gname categories td.1 td.2)

/-- Embeds `groupedCategories` of BulkCategoryEditor (src/unnamed/part_005
lines 57-116). -/
def groupedCategoriesBulk (categories : List Category) : List CategoryTypeSection :=
  groupedCategoriesCore bulkGroupName categories

/-- Embeds `groupedCategories` of InlineCategoryEditor (lines 85-144). -/
def groupedCategoriesInline (categories : List Category) : List CategoryTypeSection :=
  groupedCategoriesCore inlineGroupName categories

/-! ## Account filters (AccountFilters, src/unnamed/part_001) -/

/-- Value of the type filter: an account type or `"all"`. -/
inductive TypeFilterValue
  | all
  | ASSET
  | LIABILITY
  deriving DecidableEq

/-- Value of the subtype filter: an account subtype or `"all"`. -/
inductive SubtypeFilterValue
  | all
  | CHECKING
  | SAVINGS
  | CREDIT
  | LOAN
  | INVESTMENT
  deriving DecidableEq

/-- The `AccountFilters` state of the component. -/
structure AccountFiltersState where
  search : String
  type : TypeFilterValue
  subtype : SubtypeFilterValue
  deriving DecidableEq

/-- Default filter state (the `clearFilters` state and the page's initial
state): empty search, both selects on `"all"`. -/
def defaultAccountFilters : AccountFiltersState :=
  { search := "", type := TypeFilterValue.all, subtype := SubtypeFilterValue.all }

/-- Embeds `getAvailableSubtypesForType` (src/unnamed/part_001 lines 43-64):
the `{value, label}` pairs offered for each type. -/
def getAvailableSubtypesForType (type : TypeFilterValue) :
    List (SubtypeFilterValue × String) :=
  match type with
  | .ASSET =>
    [(SubtypeFilterValue.CHECKING, "Checking"), (SubtypeFilterValue.SAVINGS, "Savings"),
     (SubtypeFilterValue.INVESTMENT, "Investment")]
  | .LIABILITY =>
    [(SubtypeFilterValue.CREDIT, "Credit"), (SubtypeFilterValue.LOAN, "Loan")]
  | .all =>
    [(SubtypeFilterValue.CHECKING, "Checking"), (SubtypeFilterValue.SAVINGS, "Savings"),
     (SubtypeFilterValue.INVESTMENT, "Investment"),
     (SubtypeFilterValue.CREDIT, "Credit"), (SubtypeFilterValue.LOAN, "Loan")]

/-- One `updateFilter(key, value)` call; the three keys carry values of the
corresponding field type. -/
inductive FilterUpdate
  | setSearch (s : String)
  | setType (v : TypeFilterValue)
  | setSubtype (v : SubtypeFilterValue)

/-- Embeds `updateFilter` (src/unnamed/part_001 lines 27-40): the keyed field
is overwritten; when the key is `"type"`, the (old) subtype is reset to
`"all"` unless it is `"all"` already or available for the new type. -/
def updateFilter (filters : AccountFiltersState) : FilterUpdate → AccountFiltersState
  | .setSearch s => { filters with search := s }
  | .setType v =>
    let newFilters := { filters with type := v }
    if filters.subtype ≠ SubtypeFilterValue.all ∧
        ¬ (getAvailableSubtypesForType v).any (fun st => st.1 == filters.subtype) then
      { newFilters with subtype := SubtypeFilterValue.all }
    else newFilters
  | .setSubtype v => { filters with subtype := v }

/-- Applies a sequence of `updateFilter` transitions from a start state. -/
def applyFilterUpdates (filters : AccountFiltersState)
    (updates : List FilterUpdate) : AccountFiltersState :=
  updates.foldl updateFilter filters

/-- The subtype/type invariant of the spec's data model, transported to the
filter state: an ASSET filter only carries ASSET subtypes (or `"all"`), a
LIABILITY filter only LIABILITY subtypes (or `"all"`). -/
def FiltersInvariant (filters : AccountFiltersState) : Prop :=
  (filters.type = TypeFilterValue.ASSET →
    filters.subtype = SubtypeFilterValue.all ∨
    filters.subtype = SubtypeFilterValue.CHECKING ∨
    filters.subtype = SubtypeFilterValue.SAVINGS ∨
    filters.subtype = SubtypeFilterValue.INVESTMENT) ∧
  (filters.type = TypeFilterValue.LIABILITY →
    filters.subtype = SubtypeFilterValue.all ∨
    filters.subtype = SubtypeFilterValue.CREDIT ∨
    filters.subtype = SubtypeFilterValue.LOAN)

instance (filters : AccountFiltersState) : Decidable (FiltersInvariant filters) := by
  unfold FiltersInvariant
  infer_instance

/-- An `updateFilter` call the rendered component can actually issue: the
subtype select only offers `"all"` plus `getAvailableSubtypesForType` of the
current type, while search and type updates are unrestricted. -/
def UIAllowedUpdate (filters : AccountFiltersState) : FilterUpdate → Prop
  | .setSearch _ => True
  | .setType _ => True
  | .setSubtype v =>
    v = SubtypeFilterValue.all ∨
    (getAvailableSubtypesForType filters.type).any (fun st => st.1 == v) = true

/-- A sequence of updates each of which the component can issue in the state
reached by its predecessors. -/
def UIAllowedSeq : AccountFiltersState → List FilterUpdate → Prop
  | _, [] => True
  | filters, u :: rest =>
    UIAllowedUpdate filters u ∧ UIAllowedSeq (updateFilter filters u) rest

/-! ## Account summary (accounts page, src/unnamed/part_010) -/

/-- Balance used by the summary: `parseFloat(acc.current_balance ||
acc.cached_actual_balance || "0")`, with the falsy fallback chain of
JavaScript `||` (an absent or empty balance string is `none` here). -/
def summaryBalance (acc : Account) : Rat :=
  match acc.current_balance with
  | some v => v
  | none =>
    match acc.cached_actual_balance with
    | some v => v
    | none => 0

/-- One side of the account summary (`{count, total}`). -/
structure SummarySide where
  count : Nat
  total : Rat
  deriving DecidableEq

/-- Result of `getAccountSummary`. -/
structure AccountSummary where
  assets : SummarySide
  liabilities : SummarySide
  netWorth : Rat
  deriving DecidableEq

/-- Embeds `getAccountSummary` (src/unnamed/part_010 lines 17-48): assets sum
their balances, liabilities sum the absolute values of theirs, and
`netWorth = assetsTotal - liabilitiesTotal`. -/
def getAccountSummary (accounts : List Account) : AccountSummary :=
  let assets := accounts.filter (fun acc => acc.type == AccountType.ASSET)
  let liabilities := accounts.filter (fun acc => acc.type == AccountType.LIABILITY)
  let assetsTotal := assets.foldl (fun sum acc => sum + summaryBalance acc) 0
  let liabilitiesTotal := liabilities.foldl (fun sum acc => sum + |summaryBalance acc|) 0
  { assets := { count := assets.length, total := assetsTotal },
    liabilities := { count := liabilities.length, total := liabilitiesTotal },
    netWorth := assetsTotal - liabilitiesTotal }

/-! ## Balance recomputation (backend of `refreshAccountBalance`,
src/unnamed/part_007 lines 378-415) -/

/-- Ledger entry as needed for balance recomputation. -/
structure BalanceEntry where
  account : String
  signed_amount : Rat
  deriving DecidableEq

/-- Ledger-side state: the stored per-account balances (an association list,
`lookupBalance` defaulting to `0`) and the entry history. -/
structure LedgerState where
  balances : List (String × Rat)
  entries : List BalanceEntry
  deriving DecidableEq

/-- Stored balance of an account. -/
def lookupBalance (st : LedgerState) (id : String) : Rat :=
  match st.balances.find? (fun p => p.1 == id) with
  | some p => p.2
  | none => 0

/-- Overwrites (or inserts) the stored balance of one account. -/
def updateBalanceAssoc : List (String × Rat) → String → Rat → List (String × Rat)
  | [], id, v => [(id, v)]
  | (k, w) :: rest, id, v =>
    if k == id then (k, v) :: rest else (k, w) :: updateBalanceAssoc rest id v

/-- Response shape of `refreshAccountBalance` (src/unnamed/part_007
lines 381-390), restricted to the numeric fields. -/
structure RefreshBalanceResult where
  previous_balance : Rat
  current_balance : Rat
  difference : Rat
  was_updated : Bool
  deriving DecidableEq

/-- Balance of an account recomputed from its entry history: the sum of all
its entries' signed amounts. -/
def computedBalance (entries : List BalanceEntry) (id : String) : Rat :=
  ((entries.filter (fun e => e.account == id)).map BalanceEntry.signed_amount).sum

/-- Modelled from the spec: the backend handler of
`POST /accounts/{id}/refresh_balance/` is not under `src/` (only its HTTP
client `refreshAccountBalance` is, src/unnamed/part_007 lines 378-415).
Per spec section 4.3/6, it recomputes the balance as the sum of all signed
amounts for the account, reports `{previous, current, difference,
was_updated}`, and stores the recomputed balance when it differs. -/
def refreshAccountBalance (st : LedgerState) (id : String) :
    RefreshBalanceResult × LedgerState :=
  let previous := lookupBalance st id
  let current := computedBalance st.entries id
  ({ previous_balance := previous, current_balance := current,
     difference := current - previous, was_updated := previous != current },
   if previous == current then st
   else { st with balances := updateBalanceAssoc st.balances id current })

/-! ## Bulk reconciliation (backend of `bulkReconcileTransactions`,
src/frontend/src/api/ledger.ts lines 527-572) -/

/-- Reconciliation status union of a ledger entry. -/
inductive ReconStatus
  | matched
  | manually_cleared
  | unmatched
  deriving DecidableEq

/-- Bulk reconciliation action union (`mark_cleared` or `mark_uncleared`). -/
inductive ReconAction
  | mark_cleared
  | mark_uncleared
  deriving DecidableEq

/-- Ledger entry as needed for bulk reconciliation: its reconciliation
status and the counterpart entry id when it is one side of a transfer pair. -/
structure ReconEntry where
  id : String
  description : String
  reconciliation_status : ReconStatus
  transfer_counterpart : Option String
  deriving DecidableEq

/-- One element of the `skipped_entries` report (`{id, reason, description}`). -/
structure SkippedEntry where
  id : String
  reason : String
  description : String
  deriving DecidableEq

/-- Response shape of `bulkReconcileTransactions`
(src/frontend/src/api/ledger.ts lines 531-543). -/
structure BulkReconcileResponse where
  updated_count : Nat
  skipped_count : Nat
  total_requested : Nat
  transfer_entries_included : List String
  skipped_entries : List SkippedEntry
  action_performed : ReconAction
  deriving DecidableEq

/-- Status written by an action: `mark_cleared` writes `manually_cleared`,
`mark_uncleared` writes `unmatched`. -/
def actionStatus : ReconAction → ReconStatus
  | .mark_cleared => ReconStatus.manually_cleared
  | .mark_uncleared => ReconStatus.unmatched

/-- Modelled from the spec: counterpart ids pulled into a bulk reconciliation
because only one side of their transfer pair was selected (spec 4.5: "when
one side of a transfer pair is included in the id list, apply the same
action to both sides ... recording the added counterpart id in
`transfer_entries_included`"). -/
def transferEntriesIncluded (entries : List ReconEntry) (entryIds : List String) :
    List String :=
  entries.foldl
    (fun acc e =>
      if e.id ∈ entryIds then
        match e.transfer_counterpart with
        | some c => if c ∉ entryIds ∧ c ∉ acc then acc ++ [c] else acc
        | none => acc
      else acc)
    []

/-- Modelled from the spec: the backend handler of
`POST /entries/bulk_reconcile/` is not under `src/` (only its HTTP client
`bulkReconcileTransactions` is, src/frontend/src/api/ledger.ts lines
527-572).  Per spec section 4.5 it processes the requested ids plus the
pulled-in transfer counterparts, skips entries already `matched` (reported
with reason `already_matched`, not failed), writes the action's status to
the rest, and reports counts, skips, pulled-in counterpart ids and the
action performed. -/
def bulkReconcile (entries : List ReconEntry) (entryIds : List String)
    (action : ReconAction) : BulkReconcileResponse × List ReconEntry :=
  let included := transferEntriesIncluded entries entryIds
  let processIds := entryIds ++ included
  let updatedEntries :=
    entries.map (fun e =>
      if e.id ∈ processIds ∧ e.reconciliation_status ≠ ReconStatus.matched then
        { e with reconciliation_status := actionStatus action }
      else e)
  let updated := entries.filter (fun e =>
    decide (e.id ∈ processIds) && decide (e.reconciliation_status ≠ ReconStatus.matched))
  let skippedMatched := entries.filter (fun e =>
    decide (e.id ∈ processIds) && decide (e.reconciliation_status = ReconStatus.matched))
  let skippedEntries := skippedMatched.map (fun e =>
    { id := e.id, reason := "already_matched", description := e.description })
  ({ updated_count := updated.length,
     skipped_count := skippedEntries.length,
     total_requested := entryIds.length,
     transfer_entries_included := included,
     skipped_entries := skippedEntries,
     action_performed := action },
   updatedEntries)

/-! ## Concrete sample data used by witnesses and counterexamples -/

/-- Sample transaction form with a zero magnitude. -/
def sampleTxnForm : TransactionFormData :=
  { account := "a1", effective_date := 0, raw_amount_parsed := some 0,
    description := "zero amount", direction := Direction.out, category := some "c1" }

/-- Sample transfer form whose accounts coincide. -/
def sampleTransferForm : TransferFormData :=
  { from_account := "A", to_account := "A", effective_date := 0,
    amount_parsed := some 10, purpose_category := "c1", description := none }

/-- Sample expense category in group `Essentials`. -/
def sampleCatFood : Category :=
  { id := "c1", name := "Food", group := none, group_id := none,
    group_name := some "Essentials", type := some CategoryType.EXPENSE }

/-- Second sample expense category in group `Essentials`. -/
def sampleCatRent : Category :=
  { id := "c2", name := "Rent", group := none, group_id := none,
    group_name := some "Essentials", type := some CategoryType.EXPENSE }

/-- Sample category whose lightweight `group_name` is absent while the full
`group` object is present: the two editors bucket it differently. -/
def sampleGroupedCat : Category :=
  { id := "c9", name := "Payout", group := some { id := "g1", name := "Employer" },
    group_id := some "g1", group_name := none, type := some CategoryType.INCOME }

/-- Sample liability account with a negative (owed) balance. -/
def sampleLiability : Account :=
  { id := "l1", name := "Card", type := AccountType.LIABILITY,
    current_balance := some (-25), cached_actual_balance := none }

/-- Sample transfer-pair entry, the selected side. -/
def sampleEntryOne : ReconEntry :=
  { id := "e1", description := "transfer out",
    reconciliation_status := ReconStatus.unmatched, transfer_counterpart := some "e2" }

/-- Sample transfer-pair entry, the unselected counterpart side. -/
def sampleEntryTwo : ReconEntry :=
  { id := "e2", description := "transfer in",
    reconciliation_status := ReconStatus.unmatched, transfer_counterpart := some "e1" }

/-! ## Order facts about the string comparison -/

theorem lexLeChars_trans :
    ∀ a b c, lexLeChars a b = true → lexLeChars b c = true → lexLeChars a c = true := by
  intro a
  induction a with
  | nil => intro b c _ _; rfl
  | cons x xs ih =>
    intro b c hab hbc
    cases b with
    | nil => simp [lexLeChars] at hab
    | cons y ys =>
      cases c with
      | nil => simp [lexLeChars] at hbc
      | cons z zs =>
        simp only [lexLeChars] at hab hbc ⊢
        by_cases hxy : x = y <;> by_cases hyz : y = z
        · have hxz : x = z := hxy.trans hyz
          simp only [if_pos hxy] at hab
          simp only [if_pos hyz] at hbc
          simp only [if_pos hxz]
          exact ih ys zs hab hbc
        · have hxz : x ≠ z := fun h => hyz (hxy.symm.trans h)
          simp only [if_neg hyz] at hbc
          simp only [if_neg hxz]
          rw [hxy]
          exact hbc
        · have hxz : x ≠ z := fun h => hxy (h.trans hyz.symm)
          simp only [if_neg hxy] at hab
          simp only [if_neg hxz]
          rw [← hyz]
          exact hab
        · simp only [if_neg hxy] at hab
          simp only [if_neg hyz] at hbc
          have hxy' : x < y := by simpa using hab
          have hyz' : y < z := by simpa using hbc
          have hxz' : x < z := lt_trans hxy' hyz'
          simp only [if_neg (ne_of_lt hxz')]
          simpa using hxz'

theorem lexLeChars_total :
    ∀ a b, lexLeChars a b = true ∨ lexLeChars b a = true := by
  intro a
  induction a with
  | nil => intro b; left; rfl
  | cons x xs ih =>
    intro b
    cases b with
    | nil => right; rfl
    | cons y ys =>
      simp only [lexLeChars]
      by_cases hxy : x = y
      · subst hxy
        simpa using ih ys
      · have hyx : y ≠ x := fun h => hxy h.symm
        simp only [if_neg hxy, if_neg hyx]
        rcases lt_or_gt_of_ne hxy with h | h
        · left; simpa using h
        · right; simpa using h

/-! ## Claim theorems -/

/-- C1: for every account type and direction and every nonzero raw amount,
the transaction-creation logic computes the submitted signed amount as
`direction_sign * |raw_amount|` (`out` gives `-|raw|`, `in` gives `+|raw|`),
and the ASSET and LIABILITY branches of the computation agree. -/
theorem c1_signed_amount_formula (t : AccountType) (d : Direction) (raw : Rat)
    (_hraw : raw ≠ 0) :
    signedRaw t d raw = directionSign d * |raw| ∧
    signedRaw AccountType.ASSET d raw = signedRaw AccountType.LIABILITY d raw := by
  refine ⟨?_, ?_⟩
  · cases t <;> cases d <;> simp [signedRaw, directionSign]
  · cases d <;> rfl

theorem c1_signed_amount_formula_witness :
    (50 : Rat) ≠ 0 ∧
    (signedRaw AccountType.ASSET Direction.out 50 =
        directionSign Direction.out * |(50 : Rat)| ∧
      signedRaw AccountType.ASSET Direction.out 50 =
        signedRaw AccountType.LIABILITY Direction.out 50) :=
  ⟨by norm_num,
   c1_signed_amount_formula AccountType.ASSET Direction.out 50 (by norm_num)⟩

/-- C2: transfer-form validation succeeds only when the amount parses to a
number strictly greater than zero and the two accounts differ; when either
precondition fails, no `createTransfer` payload is produced (the request is
never issued). -/
theorem c2_transfer_validation_guard (data : TransferFormData) :
    (transferSchemaValidate data = true →
      (∃ q, data.amount_parsed = some q ∧ 0 < q) ∧
      data.from_account ≠ data.to_account) ∧
    ((¬ (∃ q, data.amount_parsed = some q ∧ 0 < q)) ∨
        data.from_account = data.to_account →
      handleSubmitTransfer data = none) := by
  have key : transferSchemaValidate data = true →
      (∃ q, data.amount_parsed = some q ∧ 0 < q) ∧
      data.from_account ≠ data.to_account := by
    intro h
    simp only [transferSchemaValidate, Bool.and_eq_true, decide_eq_true_eq,
      bne_iff_ne, ne_eq] at h
    obtain ⟨⟨⟨⟨_hfrom, _hto⟩, hamt⟩, _hpc⟩, hne⟩ := h
    refine ⟨?_, hne⟩
    cases hp : data.amount_parsed with
    | none => rw [hp] at hamt; simp [transferAmountRefine] at hamt
    | some q =>
      rw [hp] at hamt
      simp only [transferAmountRefine, decide_eq_true_eq] at hamt
      exact ⟨q, rfl, hamt⟩
  refine ⟨key, ?_⟩
  intro h
  cases hv : transferSchemaValidate data with
  | false => simp [handleSubmitTransfer, hv]
  | true =>
    rcases key hv with ⟨hex, hne⟩
    rcases h with h | h
    · exact absurd hex h
    · exact absurd h hne

theorem c2_transfer_validation_guard_witness :
    handleSubmitTransfer sampleTransferForm = none :=
  (c2_transfer_validation_guard sampleTransferForm).2 (Or.inr rfl)

/-- C7: the entry-creation amount refine accepts a parsed amount exactly when
it is a number distinct from zero (so `NaN` and zero are rejected), and a
zero or non-numeric magnitude never reaches entry creation: the submit path
produces no payload for it. -/
theorem c7_amount_validation (accounts : List Account) (data : TransactionFormData) :
    (rawAmountRefine data.raw_amount_parsed = true ↔
      ∃ q, data.raw_amount_parsed = some q ∧ q ≠ 0) ∧
    (data.raw_amount_parsed = none ∨ data.raw_amount_parsed = some 0 →
      handleSubmitTransaction accounts data = none) := by
  constructor
  · cases hp : data.raw_amount_parsed with
    | none => simp [rawAmountRefine]
    | some q => simp [rawAmountRefine]
  · intro h
    have href : rawAmountRefine data.raw_amount_parsed = false := by
      rcases h with h | h <;> simp [rawAmountRefine, h]
    have hv : transactionSchemaValidate data = false := by
      simp [transactionSchemaValidate, href]
    simp [handleSubmitTransaction, hv]

theorem c7_amount_validation_witness :
    handleSubmitTransaction [] sampleTxnForm = none :=
  (c7_amount_validation [] sampleTxnForm).2 (Or.inr rfl)

/-- C4 counterexample: a stale direct category reference (an id absent from
the catalog) does NOT resolve to the `Uncategorized` result in
BulkCategoryEditor: it shows the fallback label `Unknown Category` with
`isUncategorized = false`. -/
theorem c4_stale_category_counterexample :
    (getCurrentCategory [] (SelectedCategoryId.someId "c1") "Choose category...").name ≠
      "Uncategorized" ∧
    (getCurrentCategory [] (SelectedCategoryId.someId "c1")
        "Choose category...").isUncategorized = false := by
  constructor
  · decide
  · rfl

/-- C4 (amended): category resolution never fails, but the two display
resolvers degrade differently: a stale direct id resolves to the non-error
label `Unknown Category` (not `Uncategorized`) in BulkCategoryEditor, while
the `Uncategorized` result arises from a `null` selection there, and in
InlineCategoryEditor from a server-resolved `uncategorized` effective
category or a missing legacy category name. -/
theorem c4_stale_category_resolution :
    (∀ (categories : List Category) (cid ph : String),
      categories.find? (fun c => c.id == cid) = none →
      getCurrentCategory categories (SelectedCategoryId.someId cid) ph =
        { name := "Unknown Category", isUncategorized := false }) ∧
    (∀ (categories : List Category) (ph : String),
      getCurrentCategory categories SelectedCategoryId.nullId ph =
        { name := "Uncategorized", isUncategorized := true }) ∧
    (∀ (entry : LedgerEntryView) (ec : EffectiveCategory),
      entry.effective_category = some ec →
      ec.type = EffectiveCategoryKind.uncategorized →
      getCurrentCategoryInfo entry =
        { name := "Uncategorized", type := none, isUncategorized := true,
          categoryId := none }) ∧
    (∀ entry : LedgerEntryView,
      entry.effective_category = none →
      jsTruthyStr entry.category_name = false →
      getCurrentCategoryInfo entry =
        { name := "Uncategorized", type := none, isUncategorized := true,
          categoryId := none }) := by
  refine ⟨?_, ?_, ?_, ?_⟩
  · intro categories cid ph hfind
    simp [getCurrentCategory, hfind, jsOrStr]
  · intro categories ph
    rfl
  · intro entry ec hec htype
    obtain ⟨k, cid, cname, ctype⟩ := ec
    cases htype
    simp [getCurrentCategoryInfo, hec]
  · intro entry heff htruthy
    simp [getCurrentCategoryInfo, heff, htruthy]

theorem c4_stale_category_resolution_witness :
    getCurrentCategory [] (SelectedCategoryId.someId "deleted") "Select category" =
      { name := "Unknown Category", isUncategorized := false } :=
  c4_stale_category_resolution.1 [] "deleted" "Select category" rfl

theorem foldl_add_map_sum {α : Type} (f : α → Rat) :
    ∀ (l : List α) (i : Rat), l.foldl (fun sum a => sum + f a) i = i + (l.map f).sum
  | [], i => by simp
  | a :: l, i => by
    simp only [List.foldl_cons, List.map_cons, List.sum_cons]
    rw [foldl_add_map_sum f l (i + f a)]
    ring

/-- C10: the account summary computes `netWorth` as the sum of parsed ASSET
balances minus the sum of absolute values of parsed LIABILITY balances;
consequently adding a LIABILITY account never increases net worth,
whatever the sign of its balance. -/
theorem c10_net_worth_formula (accounts : List Account) :
    ((getAccountSummary accounts).netWorth =
      ((accounts.filter (fun acc => acc.type == AccountType.ASSET)).map
        summaryBalance).sum -
      ((accounts.filter (fun acc => acc.type == AccountType.LIABILITY)).map
        (fun acc => |summaryBalance acc|)).sum) ∧
    (∀ liab : Account, liab.type = AccountType.LIABILITY →
      (getAccountSummary (liab :: accounts)).netWorth ≤
        (getAccountSummary accounts).netWorth) := by
  have hformula : ∀ l : List Account,
      (getAccountSummary l).netWorth =
        ((l.filter (fun acc => acc.type == AccountType.ASSET)).map summaryBalance).sum -
        ((l.filter (fun acc => acc.type == AccountType.LIABILITY)).map
          (fun acc => |summaryBalance acc|)).sum := by
    intro l
    unfold getAccountSummary
    simp only
    rw [foldl_add_map_sum, foldl_add_map_sum]
    ring
  refine ⟨hformula accounts, ?_⟩
  intro liab hliab
  rw [hformula, hformula]
  have hA : (liab :: accounts).filter (fun acc => acc.type == AccountType.ASSET) =
      accounts.filter (fun acc => acc.type == AccountType.ASSET) := by
    rw [List.filter_cons_of_neg]
    simp [hliab]
  have hL : (liab :: accounts).filter (fun acc => acc.type == AccountType.LIABILITY) =
      liab :: accounts.filter (fun acc => acc.type == AccountType.LIABILITY) := by
    rw [List.filter_cons_of_pos]
    simp [hliab]
  rw [hA, hL]
  simp only [List.map_cons, List.sum_cons]
  have habs : (0 : Rat) ≤ |summaryBalance liab| := abs_nonneg _
  linarith

theorem c10_net_worth_formula_witness :
    (getAccountSummary [sampleLiability]).netWorth ≤ (getAccountSummary []).netWorth :=
  (c10_net_worth_formula []).2 sampleLiability rfl

theorem find_updateBalanceAssoc :
    ∀ (l : List (String × Rat)) (id : String) (v : Rat),
      ((updateBalanceAssoc l id v).find? (fun p => p.1 == id)).map Prod.snd = some v := by
  intro l id v
  induction l with
  | nil => simp [updateBalanceAssoc, List.find?]
  | cons p rest ih =>
    obtain ⟨k, w⟩ := p
    by_cases hk : (k == id) = true
    · simp [updateBalanceAssoc, hk, List.find?]
    · have hk' : (k == id) = false := by simpa using hk
      simp [updateBalanceAssoc, hk', List.find?, ih]

theorem lookupBalance_update (st : LedgerState) (id : String) (v : Rat) :
    lookupBalance { st with balances := updateBalanceAssoc st.balances id v } id = v := by
  unfold lookupBalance
  simp only
  have h := find_updateBalanceAssoc st.balances id v
  cases hf : (updateBalanceAssoc st.balances id v).find? (fun p => p.1 == id) with
  | none => rw [hf] at h; simp at h
  | some p => rw [hf] at h; simp at h; exact h

/-- C9: `refreshAccountBalance` is idempotent: a second call with no
intervening entry writes reports `was_updated = false` and a zero
difference, and leaves the whole ledger state (in particular the stored
balance) unchanged. -/
theorem c9_refresh_balance_idempotent (st : LedgerState) (id : String) :
    (refreshAccountBalance (refreshAccountBalance st id).2 id).1.was_updated = false ∧
    (refreshAccountBalance (refreshAccountBalance st id).2 id).1.difference = 0 ∧
    (refreshAccountBalance (refreshAccountBalance st id).2 id).2 =
      (refreshAccountBalance st id).2 := by
  have hent : (refreshAccountBalance st id).2.entries = st.entries := by
    unfold refreshAccountBalance
    simp only
    split
    · rfl
    · rfl
  have hlook : lookupBalance (refreshAccountBalance st id).2 id =
      computedBalance st.entries id := by
    unfold refreshAccountBalance
    simp only
    split
    · next h => exact eq_of_beq h
    · exact lookupBalance_update st id (computedBalance st.entries id)
  have hkey : lookupBalance (refreshAccountBalance st id).2 id =
      computedBalance (refreshAccountBalance st id).2.entries id := by
    rw [hent, hlook]
  refine ⟨?_, ?_, ?_⟩
  · show (lookupBalance (refreshAccountBalance st id).2 id !=
      computedBalance (refreshAccountBalance st id).2.entries id) = false
    rw [hkey]
    simp
  · show computedBalance (refreshAccountBalance st id).2.entries id -
      lookupBalance (refreshAccountBalance st id).2 id = 0
    rw [hkey]
    ring
  · show (if lookupBalance (refreshAccountBalance st id).2 id ==
        computedBalance (refreshAccountBalance st id).2.entries id
      then (refreshAccountBalance st id).2
      else { (refreshAccountBalance st id).2 with
              balances := updateBalanceAssoc (refreshAccountBalance st id).2.balances id
                (computedBalance (refreshAccountBalance st id).2.entries id) }) =
      (refreshAccountBalance st id).2
    rw [if_pos (by rw [hkey]; exact beq_self_eq_true _)]

/-- C8 counterexample: the raw `updateFilter` transition function does not
guard subtype writes, so the two-step sequence that first selects type ASSET
and then writes subtype CREDIT reaches a state violating the subtype/type
invariant. -/
theorem c8_filter_invariant_counterexample :
    ¬ FiltersInvariant
        (applyFilterUpdates defaultAccountFilters
          [FilterUpdate.setType TypeFilterValue.ASSET,
           FilterUpdate.setSubtype SubtypeFilterValue.CREDIT]) := by
  decide

theorem filtersInvariant_preserved (filters : AccountFiltersState) (u : FilterUpdate)
    (hinv : FiltersInvariant filters) (hok : UIAllowedUpdate filters u) :
    FiltersInvariant (updateFilter filters u) := by
  obtain ⟨s, t, sub⟩ := filters
  cases u with
  | setSearch s2 => exact hinv
  | setType v =>
    cases sub <;> cases v <;>
      simp [updateFilter, FiltersInvariant, getAvailableSubtypesForType]
  | setSubtype v =>
    rcases hok with hok | hok
    · subst hok
      cases t <;> simp [updateFilter, FiltersInvariant]
    · cases t <;> cases v <;>
        simp_all [updateFilter, FiltersInvariant, getAvailableSubtypesForType]

theorem filtersInvariant_seq :
    ∀ (updates : List FilterUpdate) (filters : AccountFiltersState),
      FiltersInvariant filters → UIAllowedSeq filters updates →
      FiltersInvariant (applyFilterUpdates filters updates)
  | [], _, hinv, _ => hinv
  | u :: rest, filters, hinv, hseq =>
    filtersInvariant_seq rest (updateFilter filters u)
      (filtersInvariant_preserved filters u hinv hseq.1) hseq.2

/-- C8 (amended): every sequence of `updateFilter` transitions from the
default filter state preserves the subtype/type invariant, provided each
subtype write uses a value the rendered subtype selector offers in its
pre-state (`"all"` or a member of `getAvailableSubtypesForType` of the
current type); a type change resets an incompatible subtype to `"all"`. -/
theorem c8_filter_invariant_ui (updates : List FilterUpdate)
    (h : UIAllowedSeq defaultAccountFilters updates) :
    FiltersInvariant (applyFilterUpdates defaultAccountFilters updates) :=
  filtersInvariant_seq updates defaultAccountFilters (by decide) h

theorem c8_filter_invariant_ui_witness :
    FiltersInvariant
      (applyFilterUpdates defaultAccountFilters
        [FilterUpdate.setType TypeFilterValue.LIABILITY,
         FilterUpdate.setSubtype SubtypeFilterValue.CREDIT,
         FilterUpdate.setType TypeFilterValue.ASSET]) :=
  c8_filter_invariant_ui
    [FilterUpdate.setType TypeFilterValue.LIABILITY,
     FilterUpdate.setSubtype SubtypeFilterValue.CREDIT,
     FilterUpdate.setType TypeFilterValue.ASSET]
    ⟨trivial, ⟨Or.inr (by decide), ⟨trivial, trivial⟩⟩⟩

theorem mem_foldl_transferIncluded (entryIds : List String) :
    ∀ (l : List ReconEntry) (acc : List String) (x : String), x ∈ acc →
      x ∈ l.foldl
        (fun acc e =>
          if e.id ∈ entryIds then
            match e.transfer_counterpart with
            | some c => if c ∉ entryIds ∧ c ∉ acc then acc ++ [c] else acc
            | none => acc
          else acc)
        acc
  | [], _, _, hx => hx
  | e :: rest, acc, x, hx => by
    simp only [List.foldl_cons]
    refine mem_foldl_transferIncluded entryIds rest _ x ?_
    split
    · cases e.transfer_counterpart with
      | some c =>
        simp only
        split
        · exact List.mem_append_left _ hx
        · exact hx
      | none => exact hx
    · exact hx

theorem mem_transferEntriesIncluded_aux (entryIds : List String) (c : String) :
    ∀ (l : List ReconEntry) (acc : List String) (e : ReconEntry), e ∈ l →
      e.id ∈ entryIds → e.transfer_counterpart = some c → c ∉ entryIds →
      c ∈ l.foldl
        (fun acc e =>
          if e.id ∈ entryIds then
            match e.transfer_counterpart with
            | some c => if c ∉ entryIds ∧ c ∉ acc then acc ++ [c] else acc
            | none => acc
          else acc)
        acc
  | [], _, _, hmem, _, _, _ => absurd hmem (List.not_mem_nil _)
  | hd :: rest, acc, e, hmem, hid, hcp, hnot => by
    rcases List.mem_cons.mp hmem with heq | hmem2
    · subst heq
      simp only [List.foldl_cons]
      refine mem_foldl_transferIncluded entryIds rest _ c ?_
      rw [if_pos hid, hcp]
      simp only
      by_cases hin : c ∈ acc
      · rw [if_neg (by simp [hin])]
        exact hin
      · rw [if_pos ⟨hnot, hin⟩]
        exact List.mem_append_right _ (List.mem_singleton.mpr rfl)
    · simp only [List.foldl_cons]
      exact mem_transferEntriesIncluded_aux entryIds c rest _ e hmem2 hid hcp hnot

theorem mem_transferEntriesIncluded (entries : List ReconEntry) (entryIds : List String)
    (e : ReconEntry) (he : e ∈ entries) (hid : e.id ∈ entryIds) (c : String)
    (hcp : e.transfer_counterpart = some c) (hnot : c ∉ entryIds) :
    c ∈ transferEntriesIncluded entries entryIds :=
  mem_transferEntriesIncluded_aux entryIds c entries [] e he hid hcp hnot

/-- C3: bulk reconciliation skips every already-`matched` entry (leaving its
status untouched and reporting it in `skipped_entries` with reason
`already_matched`), pulls the counterpart of a transfer pair into the batch
when only one side was selected (reporting it in
`transfer_entries_included` and applying the action to it), and its
response reports `total_requested`, `action_performed` and a
`skipped_count` that matches `skipped_entries`. -/
theorem c3_bulk_reconcile_contract (entries : List ReconEntry)
    (entryIds : List String) (action : ReconAction) :
    (∀ e ∈ entries, e.reconciliation_status = ReconStatus.matched →
      e ∈ (bulkReconcile entries entryIds action).2 ∧
      (e.id ∈ entryIds →
        ({ id := e.id, reason := "already_matched", description := e.description } :
            SkippedEntry) ∈ (bulkReconcile entries entryIds action).1.skipped_entries)) ∧
    (∀ e ∈ entries, e.id ∈ entryIds → ∀ c, e.transfer_counterpart = some c →
      c ∉ entryIds →
      c ∈ (bulkReconcile entries entryIds action).1.transfer_entries_included ∧
      (∀ e2 ∈ entries, e2.id = c →
        e2.reconciliation_status ≠ ReconStatus.matched →
        { e2 with reconciliation_status := actionStatus action }
          ∈ (bulkReconcile entries entryIds action).2)) ∧
    (bulkReconcile entries entryIds action).1.total_requested = entryIds.length ∧
    (bulkReconcile entries entryIds action).1.action_performed = action ∧
    (bulkReconcile entries entryIds action).1.skipped_count =
      (bulkReconcile entries entryIds action).1.skipped_entries.length := by
  refine ⟨?_, ?_, rfl, rfl, rfl⟩
  · intro e he hmatched
    constructor
    · refine List.mem_map.mpr ⟨e, he, ?_⟩
      rw [if_neg]
      intro hc
      exact hc.2 hmatched
    · intro hid
      refine List.mem_map.mpr ⟨e, ?_, rfl⟩
      refine List.mem_filter.mpr ⟨he, ?_⟩
      simp only [Bool.and_eq_true, decide_eq_true_eq]
      exact ⟨List.mem_append_left _ hid, hmatched⟩
  · intro e he hid c hcp hnot
    have hinc : c ∈ transferEntriesIncluded entries entryIds :=
      mem_transferEntriesIncluded entries entryIds e he hid c hcp hnot
    refine ⟨hinc, ?_⟩
    intro e2 he2 hceq hstatus
    refine List.mem_map.mpr ⟨e2, he2, ?_⟩
    rw [if_pos]
    exact ⟨by rw [hceq]; exact List.mem_append_right _ hinc, hstatus⟩

theorem c3_bulk_reconcile_contract_witness :
    "e2" ∈ (bulkReconcile [sampleEntryOne, sampleEntryTwo] ["e1"]
        ReconAction.mark_cleared).1.transfer_entries_included ∧
    { sampleEntryTwo with reconciliation_status := ReconStatus.manually_cleared }
      ∈ (bulkReconcile [sampleEntryOne, sampleEntryTwo] ["e1"]
          ReconAction.mark_cleared).2 := by
  have h := (c3_bulk_reconcile_contract [sampleEntryOne, sampleEntryTwo] ["e1"]
      ReconAction.mark_cleared).2.1 sampleEntryOne
    (List.mem_cons_self _ _) (by decide) "e2" rfl (by decide)
  exact ⟨h.1, h.2 sampleEntryTwo (by simp) rfl (by decide)⟩

theorem filterMap_map_sublist {α β γ : Type} (f : α → Option β) (g : β → γ) (h : α → γ)
    (hf : ∀ a b, f a = some b → g b = h a) :
    ∀ l : List α, ((l.filterMap f).map g).Sublist (l.map h)
  | [] => by simp
  | a :: l => by
    rw [List.map_cons, List.filterMap_cons]
    cases hfa : f a with
    | none => exact List.Sublist.cons _ (filterMap_map_sublist f g h hf l)
    | some b =>
      rw [List.map_cons, hf a b hfa]
      exact List.Sublist.cons₂ _ (filterMap_map_sublist f g h hf l)

theorem insertionSort_eq_nil_iff {α : Type} (r : α → α → Prop) [DecidableRel r]
    (l : List α) : l.insertionSort r = [] ↔ l = [] := by
  constructor
  · intro h
    have hp := List.perm_insertionSort r l
    rw [h] at hp
    exact (hp.symm).eq_nil
  · intro h
    subst h
    rfl

theorem length_le_foldl_insertKeyOnce (gname : Category → String) :
    ∀ (cats : List Category) (acc : List String),
      acc.length ≤ (cats.foldl (fun a c => insertKeyOnce a (gname c)) acc).length
  | [], _ => le_refl _
  | c :: rest, acc => by
    simp only [List.foldl_cons]
    refine le_trans ?_ (length_le_foldl_insertKeyOnce gname rest (insertKeyOnce acc (gname c)))
    unfold insertKeyOnce
    split
    · exact le_refl _
    · simp

theorem groupKeys_eq_nil_iff (gname : Category → String) (cats : List Category) :
    groupKeys gname cats = [] ↔ cats = [] := by
  constructor
  · intro h
    cases cats with
    | nil => rfl
    | cons c rest =>
      exfalso
      have h1 : 1 ≤ (groupKeys gname (c :: rest)).length := by
        unfold groupKeys
        simp only [List.foldl_cons]
        have h0 : (insertKeyOnce [] (gname c)).length = 1 := by simp [insertKeyOnce]
        calc 1 = (insertKeyOnce [] (gname c)).length := h0.symm
          _ ≤ _ := length_le_foldl_insertKeyOnce gname rest _
      rw [h] at h1
      simp at h1
  · intro h
    subst h
    rfl

theorem buildTypeSection_some_char (gname : Category → String)
    (categories : List Category) (key : CategoryType) (display : String)
    (s : CategoryTypeSection)
    (h : buildTypeSection gname categories key display = some s) :
    s.type = key ∧
    s.groups =
      ((groupKeys gname
          (categories.filter (fun c => effectiveCategoryType c == key))).insertionSort
        localeLeR).map
        (buildGroup gname (categories.filter (fun c => effectiveCategoryType c == key))) := by
  unfold buildTypeSection at h
  simp only at h
  split at h
  · exact absurd h (by simp)
  · injection h with h
    subst h
    exact ⟨rfl, rfl⟩

theorem buildTypeSection_eq_none_iff (gname : Category → String)
    (categories : List Category) (key : CategoryType) (display : String) :
    buildTypeSection gname categories key display = none ↔
      categories.filter (fun c => effectiveCategoryType c == key) = [] := by
  have hchain : ∀ fl : List Category,
      ((((groupKeys gname fl).insertionSort localeLeR).map (buildGroup gname fl)).isEmpty
          = true) ↔ fl = [] := by
    intro fl
    rw [List.isEmpty_iff, List.map_eq_nil_iff, insertionSort_eq_nil_iff,
      groupKeys_eq_nil_iff]
  unfold buildTypeSection
  simp only
  constructor
  · intro h
    split at h
    · next hcond => exact (hchain _).mp hcond
    · exact absurd h (by simp)
  · intro h
    rw [if_pos ((hchain _).mpr h)]

theorem mem_groupedCore_of_filter_ne (gname : Category → String)
    (cats : List Category) (t : CategoryType) (display : String)
    (htd : (t, display) ∈ typeOrder)
    (hne : cats.filter (fun c => effectiveCategoryType c == t) ≠ []) :
    t ∈ (groupedCategoriesCore gname cats).map CategoryTypeSection.type := by
  have hnone : buildTypeSection gname cats t display ≠ none :=
    fun hn => hne ((buildTypeSection_eq_none_iff gname cats t display).mp hn)
  rcases Option.ne_none_iff_exists'.mp hnone with ⟨s, hs⟩
  have hchar := buildTypeSection_some_char gname cats t display s hs
  refine List.mem_map.mpr ⟨s, ?_, hchar.1⟩
  exact List.mem_filterMap.mpr ⟨(t, display), htd, hs⟩

theorem mem_groupedCore_types (gname : Category → String) (cats : List Category)
    (t : CategoryType) :
    t ∈ (groupedCategoriesCore gname cats).map CategoryTypeSection.type ↔
      ∃ c ∈ cats, effectiveCategoryType c = t := by
  have hiff : cats.filter (fun c => effectiveCategoryType c == t) ≠ [] ↔
      ∃ c ∈ cats, effectiveCategoryType c = t := by
    rw [ne_eq, List.filter_eq_nil_iff]
    push_neg
    simp [beq_iff_eq]
  constructor
  · intro h
    rcases List.mem_map.mp h with ⟨sec, hsec, htype⟩
    rcases List.mem_filterMap.mp hsec with ⟨td, _, hbuild⟩
    have hchar := buildTypeSection_some_char gname cats td.1 td.2 sec hbuild
    have hne : cats.filter (fun c => effectiveCategoryType c == td.1) ≠ [] := by
      intro hnil
      have hn := (buildTypeSection_eq_none_iff gname cats td.1 td.2).mpr hnil
      rw [hbuild] at hn
      exact Option.noConfusion hn
    have ht : td.1 = t := by rw [← htype, hchar.1]
    rw [ht] at hne
    exact hiff.mp hne
  · intro hex
    have hne := hiff.mpr hex
    cases t with
    | INCOME =>
      exact mem_groupedCore_of_filter_ne gname cats _ "Income" (by simp [typeOrder]) hne
    | EXPENSE =>
      exact mem_groupedCore_of_filter_ne gname cats _ "Expense" (by simp [typeOrder]) hne
    | TRANSFER =>
      exact mem_groupedCore_of_filter_ne gname cats _ "Transfer" (by simp [typeOrder]) hne

theorem groupedCore_sorted (gname : Category → String) (cats : List Category) :
    ∀ sec ∈ groupedCategoriesCore gname cats,
      (sec.groups.map CategoryGroupOut.name).Sorted localeLeR ∧
      ∀ g ∈ sec.groups,
        (g.categories.map (fun gc => gc.cat.name)).Sorted localeLeR := by
  haveI : IsTotal String localeLeR := ⟨fun a b => lexLeChars_total a.data b.data⟩
  haveI : IsTrans String localeLeR :=
    ⟨fun a b c hab hbc => lexLeChars_trans a.data b.data c.data hab hbc⟩
  haveI : IsTotal GroupedCategory groupedNameLe := ⟨fun _ _ => lexLeChars_total _ _⟩
  haveI : IsTrans GroupedCategory groupedNameLe :=
    ⟨fun _ _ _ hab hbc => lexLeChars_trans _ _ _ hab hbc⟩
  intro sec hsec
  rcases List.mem_filterMap.mp hsec with ⟨td, _, hbuild⟩
  have hchar := buildTypeSection_some_char gname cats td.1 td.2 sec hbuild
  constructor
  · rw [hchar.2, List.map_map]
    have hcomp : CategoryGroupOut.name ∘
        buildGroup gname (cats.filter (fun c => effectiveCategoryType c == td.1)) = id := by
      funext k
      rfl
    rw [hcomp, List.map_id]
    exact List.sorted_insertionSort localeLeR _
  · intro g hg
    rw [hchar.2] at hg
    rcases List.mem_map.mp hg with ⟨k, _, hk⟩
    subst hk
    have hs := List.sorted_insertionSort groupedNameLe
      (((cats.filter (fun c => effectiveCategoryType c == td.1)).filter
          (fun c => gname c == k)).map (mkGroupedCategory gname))
    rw [List.Sorted, List.pairwise_map]
    exact hs

/-- C5: for every category list, the Bulk editor's grouping produces the
category types in the fixed order INCOME, EXPENSE, TRANSFER (a type section
is present exactly when a category falls in it, so empty types are
omitted), with group names sorted alphabetically inside each type and
category names sorted alphabetically inside each group. -/
theorem c5_category_grouping_contract (categories : List Category) :
    ((groupedCategoriesBulk categories).map CategoryTypeSection.type).Sublist
      [CategoryType.INCOME, CategoryType.EXPENSE, CategoryType.TRANSFER] ∧
    (∀ t : CategoryType,
      t ∈ (groupedCategoriesBulk categories).map CategoryTypeSection.type ↔
        ∃ c ∈ categories, effectiveCategoryType c = t) ∧
    (∀ sec ∈ groupedCategoriesBulk categories,
      (sec.groups.map CategoryGroupOut.name).Sorted localeLeR ∧
      ∀ g ∈ sec.groups,
        (g.categories.map (fun gc => gc.cat.name)).Sorted localeLeR) := by
  refine ⟨?_, ?_, ?_⟩
  · exact filterMap_map_sublist
      (fun td => buildTypeSection bulkGroupName categories td.1 td.2)
      CategoryTypeSection.type Prod.fst
      (fun td s hs =>
        (buildTypeSection_some_char bulkGroupName categories td.1 td.2 s hs).1)
      typeOrder
  · intro t
    exact mem_groupedCore_types bulkGroupName categories t
  · exact groupedCore_sorted bulkGroupName categories

theorem c5_category_grouping_contract_witness :
    ((groupedCategoriesBulk [sampleCatFood, sampleCatRent]).headI ∈
        groupedCategoriesBulk [sampleCatFood, sampleCatRent]) ∧
    (((groupedCategoriesBulk [sampleCatFood, sampleCatRent]).headI.groups.map
        CategoryGroupOut.name).Sorted localeLeR) := by
  have hmem : (groupedCategoriesBulk [sampleCatFood, sampleCatRent]).headI ∈
      groupedCategoriesBulk [sampleCatFood, sampleCatRent] := by decide
  exact ⟨hmem,
    ((c5_category_grouping_contract [sampleCatFood, sampleCatRent]).2.2 _ hmem).1⟩

/-- C6 counterexample: the two editors' grouping functions are NOT
extensionally equal.  On a category whose lightweight `group_name` is
absent while the full `group` object carries the name `Employer`,
BulkCategoryEditor buckets it under `Employer` (via the
`category.group?.name` fallback) while InlineCategoryEditor buckets it
under `Other`, so the grouped structures differ. -/
theorem c6_grouping_counterexample :
    groupedCategoriesBulk [sampleGroupedCat] ≠ groupedCategoriesInline [sampleGroupedCat] := by
  decide

theorem foldl_insertKey_congr (g1 g2 : Category → String) :
    ∀ (cats : List Category) (acc : List String),
      (∀ c ∈ cats, g1 c = g2 c) →
      cats.foldl (fun a c => insertKeyOnce a (g1 c)) acc =
        cats.foldl (fun a c => insertKeyOnce a (g2 c)) acc
  | [], _, _ => rfl
  | c :: rest, acc, h => by
    have hc := h c (List.mem_cons_self c rest)
    simp only [List.foldl_cons, hc]
    exact foldl_insertKey_congr g1 g2 rest _ (fun x hx => h x (List.mem_cons_of_mem c hx))

theorem buildGroup_congr (g1 g2 : Category → String) (typeCats : List Category)
    (h : ∀ c ∈ typeCats, g1 c = g2 c) (k : String) :
    buildGroup g1 typeCats k = buildGroup g2 typeCats k := by
  unfold buildGroup
  have hfil : typeCats.filter (fun c => g1 c == k) = typeCats.filter (fun c => g2 c == k) :=
    List.filter_congr (fun c hc => by rw [h c hc])
  have hmap : ∀ c ∈ typeCats.filter (fun c => g2 c == k),
      mkGroupedCategory g1 c = mkGroupedCategory g2 c := by
    intro c hc
    have hcc := h c (List.mem_of_mem_filter hc)
    simp [mkGroupedCategory, hcc]
  rw [hfil, List.map_congr_left hmap]

theorem buildTypeSection_congr (g1 g2 : Category → String) (categories : List Category)
    (h : ∀ c ∈ categories, g1 c = g2 c) (key : CategoryType) (display : String) :
    buildTypeSection g1 categories key display =
      buildTypeSection g2 categories key display := by
  unfold buildTypeSection
  dsimp only
  have hsub : ∀ c ∈ categories.filter (fun c => effectiveCategoryType c == key),
      g1 c = g2 c :=
    fun c hc => h c (List.mem_of_mem_filter hc)
  rw [show groupKeys g1 (categories.filter (fun c => effectiveCategoryType c == key)) =
      groupKeys g2 (categories.filter (fun c => effectiveCategoryType c == key)) from
    foldl_insertKey_congr g1 g2 _ [] hsub]
  rw [List.map_congr_left
    (fun k _ => buildGroup_congr g1 g2 _ hsub k)]

/-- C6 (amended): the two editors' grouping functions agree on every category
list on which the two group-name fallback chains coincide — in particular
whenever each category carries a non-empty `group_name` (or has no full
`group` object with a non-empty name to fall back to); they diverge only on
categories where `group_name` is falsy and `group?.name` is truthy. -/
theorem c6_grouping_agreement (categories : List Category)
    (h : ∀ c ∈ categories, bulkGroupName c = inlineGroupName c) :
    groupedCategoriesBulk categories = groupedCategoriesInline categories := by
  unfold groupedCategoriesBulk groupedCategoriesInline groupedCategoriesCore
  have h1 := buildTypeSection_congr bulkGroupName inlineGroupName categories h
    CategoryType.INCOME "Income"
  have h2 := buildTypeSection_congr bulkGroupName inlineGroupName categories h
    CategoryType.EXPENSE "Expense"
  have h3 := buildTypeSection_congr bulkGroupName inlineGroupName categories h
    CategoryType.TRANSFER "Transfer"
  simp [typeOrder, List.filterMap_cons, h1, h2, h3]

theorem c6_grouping_agreement_witness :
    groupedCategoriesBulk [sampleCatFood, sampleCatRent] =
      groupedCategoriesInline [sampleCatFood, sampleCatRent] :=
  c6_grouping_agreement [sampleCatFood, sampleCatRent] (by decide)
